import Mathlib

/-!
# Verification of sqlfriend's LSP core (crates/core/src/lsp, task.rs)

Shallow embedding of the protocol/process-orchestration engine of the
`sqlfriend` repository, together with proofs and refutations of the
specification's testable claims.

The embedding keeps the Rust sources' names where Lean allows:

* `read_body` / `parse_header`    — `crates/core/src/lsp/response.rs`
* `to_payload`                    — `crates/core/src/lsp/payload.rs`
* `send_blocking_request`'s wait loop — `crates/core/src/lsp/client.rs`
* `request_completion`            — `crates/core/src/lsp/client.rs`
* `init_lsp_server`, `is_initialized` — `crates/core/src/lsp/client.rs`
* `complete` / `complete_with_logging` — `crates/core/src/lsp/completer.rs`
* `compute_byte_offset`           — `crates/core/src/lsp/notification_handler.rs`
* `LspServer::new` / `init_stdio` channel wiring — `crates/core/src/lsp/server.rs`
* `TaskManager::spawn_lsp` / `new_process_manager` interleavings —
  `crates/core/src/task.rs`, `crates/core/src/lsp/server.rs`

Byte streams are modelled as `List Char` (one `Char` per byte; every byte the
protocol inspects is ASCII), machine integers as `Nat` (the quantities involved
are lengths, far below overflow except where noted: `usize` subtraction in
`compute_byte_offset` is modelled with an explicit checked subtraction whose
`none` value represents the Rust underflow panic).
-/

namespace Sqlfriend

/-! ## JSON values

A structural model of `serde_json::Value` as far as the client inspects it:
null, booleans, numbers, strings, arrays and objects (objects as association
lists in arrival order; `get` returns the first binding, as `serde_json`'s
preserve-order map does for the keys the client reads). -/

inductive Json where
  | null : Json
  | bool (b : Bool) : Json
  | num (n : Int) : Json
  | str (s : String) : Json
  | arr (elems : List Json) : Json
  | obj (fields : List (String × Json)) : Json

/-- `Value::get(key)` on an object: first binding wins; `None` on non-objects. -/
def Json.get (v : Json) (key : String) : Option Json :=
  match v with
  | .obj fields =>
    match fields.find? (fun f => f.1 = key) with
    | some f => some f.2
    | none => none
  | _ => none

/-- `Value::as_str`. -/
def Json.asStr (v : Json) : Option String :=
  match v with
  | .str s => some s
  | _ => none

/-! ## The blocking-request wait loop (`LspClient::send_blocking_request`)

`client.rs:158-195`: the client subscribes a fresh receiver to the response
fan-out channel, sends the request, and then loops: each iteration waits at
most `REQUEST_TIMEOUT` (5 s, `client.rs:45`) for the next raw body on the
channel; a body that does not parse as `Response<Value>` is skipped; a parsed
response whose id differs from the request id is skipped; the first response
whose id matches ends the loop, after which the payload is converted with
`Success::try_from` (failing on JSON-RPC error payloads) and deserialized into
the expected type.

The messages delivered to this request's receiver are modelled as a finite
schedule `List (Nat × Delivered)`: each entry carries the number of seconds
the receiver had to wait for it since the previous loop iteration started.  An
entry arriving after more than 5 seconds is never seen — the timeout fires
first; once the schedule is exhausted nothing further arrives, so the next
5-second window also elapses. -/

/-- A JSON-RPC response payload: either a `result` or an `error` object
(`jsonrpsee_types::Response`). -/
inductive RpcPayload where
  | success (result : Json) : RpcPayload
  | failure (message : String) : RpcPayload

/-- A parsed JSON-RPC response: correlation id plus payload.  Ids are the
UUID strings generated by `payload::generate_uuid`. -/
structure RpcResponse where
  id : String
  payload : RpcPayload

/-- One raw body delivered on the response fan-out channel: either it parses
as `Response<Value>` or it does not (`client.rs:179`). -/
inductive Delivered where
  | response (r : RpcResponse) : Delivered
  | unparsable (raw : String) : Delivered

/-- Does a delivered message parse as a response whose id matches `reqId`?
(`client.rs:179-180`). -/
def deliveredMatches (reqId : String) (m : Delivered) : Bool :=
  match m with
  | .response r => r.id = reqId
  | .unparsable _ => false

/-- The timeout error produced by
`format!("received no response for blocking request: {}", &req_payload)`
(`client.rs:166-169`): it names the request via its serialized payload. -/
def timeoutMsg (reqPayload : String) : String :=
  "received no response for blocking request: " ++ reqPayload

/-- `Success::try_from(res)` followed by `serde_json::from_value::<T>`
(`client.rs:186-189`), with the `serde` decode abstracted as a parameter. -/
def decodeSuccess {T : Type} (decode : Json → Except String T)
    (r : RpcResponse) : Except String T :=
  match r.payload with
  | .success v => decode v
  | .failure m => .error m

/-- The timeout-bounded correlation loop of `send_blocking_request`
(`client.rs:170-190`), over a schedule of deliveries with per-iteration
waiting times in seconds. -/
def send_blocking_request {T : Type} (decode : Json → Except String T)
    (reqId reqPayload : String) :
    List (Nat × Delivered) → Except String T
  | [] => .error (timeoutMsg reqPayload)
  | (wait, m) :: rest =>
    if 5 < wait then .error (timeoutMsg reqPayload)
    else
      match m with
      | .response r =>
        if r.id = reqId then decodeSuccess decode r
        else send_blocking_request decode reqId reqPayload rest
      | .unparsable _ => send_blocking_request decode reqId reqPayload rest

/-! ## Completion-response parsing (`LspClient::request_completion`)

`client.rs:84-118`: the raw completion result (a `serde_json::Value`) is first
decoded strictly with `serde_json::from_value::<lsp_types::CompletionResponse>`;
on success the items' labels are returned.  Only if the strict decode fails
does the manual fallback run: treat the value as a generic array, read each
element's `"label"` field as a string, and fail (`anyhow!`) if the value is not
an array or any element lacks a string label. -/

/-- Read one completion item's string `label`: the element must be an object
whose `"label"` field is a string.  This is both what the fallback closure
(`client.rs:103-115`) extracts per element, and the only required field of
`lsp_types::CompletionItem` (every other field is `Option`al and defaulted by
`serde`). -/
def itemLabel (v : Json) : Option String :=
  (v.get "label").bind Json.asStr

/-- Labels of a list of completion items, failing if any element lacks a
string label. -/
def itemLabels : List Json → Option (List String)
  | [] => some []
  | v :: vs =>
    match itemLabel v, itemLabels vs with
    | some l, some ls => some (l :: ls)
    | _, _ => none

/-- Modelled from the spec: the strict decode into the standard
completion-response shape (`serde_json::from_value::<lsp_types::CompletionResponse>`,
`client.rs:92`; `lsp_types` is a dependency, not part of this repository).
Per the spec (§4.4) the standard shape is "an array of items, or a wrapped
list": the `serde(untagged)` enum `CompletionResponse` accepts either a JSON
array of completion items (objects with a required string `label`; unknown and
optional fields are ignored here) or a completion-list object carrying a
boolean `isIncomplete` and an `items` array of such items.  On success the
client keeps only the items' labels (`client.rs:94-99`). -/
def strictCompletionLabels (v : Json) : Option (List String) :=
  match v with
  | .arr elems => itemLabels elems
  | .obj _ =>
    match v.get "isIncomplete", v.get "items" with
    | some (.bool _), some (.arr elems) => itemLabels elems
    | _, _ => none
  | _ => none

/-- The manual fallback parser (`client.rs:103-115`): the value must be an
array and every element must yield a string `"label"`. -/
def fallbackCompletionLabels (v : Json) : Option (List String) :=
  match v with
  | .arr elems => itemLabels elems
  | _ => none

/-- The parse-error message of `anyhow!("failed parsing completion response: {:?}", res)`
(`client.rs:117`); the `{:?}` rendering of the value is abstracted away. -/
def completionParseError : String := "failed parsing completion response"

/-- `LspClient::request_completion`'s parsing stage (`client.rs:91-118`): the
strict decode first, the fallback only on its failure, an error only when both
fail. -/
def request_completion (v : Json) : Except String (List String) :=
  match strictCompletionLabels v with
  | some labels => .ok labels
  | none =>
    match fallbackCompletionLabels v with
    | some labels => .ok labels
    | none => .error completionParseError

/-! ## The completer (`LspCompleter`, `crates/core/src/lsp/completer.rs`) -/

/-- Completion candidate pair (`completer.rs:12-18`). -/
structure CandidatePair where
  display : String
  replacement : String
  deriving DecidableEq, Repr

/-- The LSP branch of completion (`complete_lsp`, `completer.rs:62-86`)
downstream of `request_completion`: each candidate string becomes a
`CandidatePair` with itself as display and replacement, paired with the start
of the SQL token at the cursor. -/
def complete_lsp_result (tokenStart : Nat) (parsed : Except String (List String)) :
    Except String (Nat × List CandidatePair) :=
  match parsed with
  | .error e => .error e
  | .ok labels => .ok (tokenStart, labels.map fun l => ⟨l, l⟩)

/-- `LspCompleter::complete_with_logging` (`completer.rs:27-41`): an inner
completion error is logged and replaced by `(0, vec![])`; the log is modelled
as the list of error lines written so far. -/
def complete_with_logging (completions : Except String (Nat × List CandidatePair))
    (log : List String) : (Nat × List CandidatePair) × List String :=
  match completions with
  | .error e => ((0, []), log ++ [e])
  | .ok r => (r, log)

/-- `is_maybe_command` (`command.rs:97-99`): the line starts with the command
prefix `/`. -/
def is_maybe_command (line : String) : Bool :=
  line.startsWith "/"

/-- Which completion source `LspCompleter::complete` routes to
(`completer.rs:44-59`): command completion for command-prefixed lines, the LSP
client when the handshake flag is set, command completion otherwise. -/
inductive Route where
  | command : Route
  | lsp : Route
  deriving DecidableEq, Repr

/-- The routing decision of `LspCompleter::complete` (`completer.rs:49-58`). -/
def complete_route (line : String) (initialized : Bool) : Route :=
  if is_maybe_command line then .command
  else if initialized then .lsp
  else .command

/-! ## The initialize handshake (`LspClient::init_lsp_server`)

`client.rs:121-147`: a blocking `initialize` request, then the `initialized`
notification, then the `didOpen` notification; each step's `?` propagates its
error, returning before the `initialized` flag (`client.rs:40`, read by
`is_initialized`, `client.rs:65-68`) is ever written.  Only after all three
steps succeed is the flag set to `true`.  The three steps' outcomes are
modelled as an environment. -/

structure HandshakeEnv where
  /-- Outcome of the blocking `initialize` request (`client.rs:130-132`). -/
  initializeResult : Except String Json
  /-- Outcome of sending the `initialized` notification (`client.rs:136-137`). -/
  initializedSend : Except String Unit
  /-- Outcome of sending the `didOpen` notification (`client.rs:140-141`). -/
  didOpenSend : Except String Unit

/-- `init_lsp_server` (`client.rs:121-147`) as a function from the step
outcomes and the current `initialized` flag to its result and the new flag. -/
def init_lsp_server (env : HandshakeEnv) (initialized : Bool) :
    Except String Unit × Bool :=
  match env.initializeResult with
  | .error e => (.error e, initialized)
  | .ok _ =>
    match env.initializedSend with
    | .error e => (.error e, initialized)
    | .ok _ =>
      match env.didOpenSend with
      | .error e => (.error e, initialized)
      | .ok _ => (.ok (), true)

/-! ## Framing (`crates/core/src/lsp/response.rs`, `payload.rs`)

The stdio byte stream is a `List Char`.  `read_line` models
`AsyncBufReadExt::read_line`: it consumes up to and including the first `'\n'`
(or the whole remaining stream at end of input, where Rust's `read_line`
returns having appended nothing so the subsequent `trim` sees an empty line).
`rustTrim` models `str::trim` for the ASCII whitespace the protocol can
contain; `lowercase` models `str::to_lowercase` on ASCII; `parseNat` models
`str::parse::<usize>` on the values in range (overflow and a leading sign are
out of scope for the lengths involved). -/

/-- ASCII whitespace, the whitespace that can occur in protocol headers. -/
def isWS (c : Char) : Bool :=
  c = ' ' || c = '\t' || c = '\n' || c = '\r'

/-- `str::trim` (restricted to ASCII whitespace). -/
def rustTrim (l : List Char) : List Char :=
  ((l.dropWhile isWS).reverse.dropWhile isWS).reverse

/-- ASCII lowercasing of one character. -/
def toLowerAscii (c : Char) : Char :=
  if 'A' ≤ c ∧ c ≤ 'Z' then Char.ofNat (c.toNat + 32) else c

/-- `str::to_lowercase` (restricted to ASCII). -/
def lowercase (l : List Char) : List Char :=
  l.map toLowerAscii

/-- `str::split_once(":")` generalized to one separator character: split at
the first occurrence, `None` when absent. -/
def splitOnce (sep : Char) : List Char → Option (List Char × List Char)
  | [] => none
  | c :: cs =>
    if c = sep then some ([], cs)
    else (splitOnce sep cs).map fun p => (c :: p.1, p.2)

/-- One digit's value. -/
def charDigit (c : Char) : Nat := c.toNat - 48

/-- `str::parse::<usize>`: a nonempty all-digit string read as a decimal
number. -/
def parseNat (l : List Char) : Option Nat :=
  if !l.isEmpty && l.all Char.isDigit then
    some (l.foldl (fun a c => 10 * a + charDigit c) 0)
  else none

/-- `AsyncBufReadExt::read_line`: the consumed line (including its `'\n'`, or
the whole stream when no `'\n'` remains) and the remaining stream. -/
def read_line : List Char → List Char × List Char
  | [] => ([], [])
  | c :: cs =>
    if c = '\n' then ([c], cs)
    else
      let p := read_line cs
      (c :: p.1, p.2)

/-- The header loop of `parse_header` (`response.rs:23-46`): read lines until
a blank (after trim) line; each non-blank line must contain a `':'`; a line
whose trimmed, lowercased key is `content-length` updates the length (which
starts at `0` and is simply returned unchanged when no such header occurs).
The loop consumes at least one character per iteration, so the explicit fuel
`s.length + 1` supplied by `parse_header` is never exhausted. -/
def parse_header_loop : Nat → List Char → Nat → Except String (Nat × List Char)
  | 0, _, _ => .error "internal: insufficient fuel"
  | fuel + 1, s, contentLength =>
    let line := (read_line s).1
    let rest := (read_line s).2
    if rustTrim line = [] then .ok (contentLength, rest)
    else
      match splitOnce ':' line with
      | none => .error "colon missing in LSP response header"
      | some (key, value) =>
        match
          if lowercase (rustTrim key) = "content-length".data then
            parseNat (rustTrim value)
          else some contentLength
        with
        | some n => parse_header_loop fuel rest n
        | none => .error "invalid digit found in string"

/-- `parse_header` (`response.rs:23-46`): returns the content length and the
stream position just past the blank line ending the header block. -/
def parse_header (s : List Char) : Except String (Nat × List Char) :=
  parse_header_loop (s.length + 1) s 0

/-- `AsyncReadExt::read_exact` into a buffer of `n` bytes: the `n` bytes read
and the remaining stream, or an error when the stream ends first. -/
def read_exact (n : Nat) (s : List Char) : Except String (List Char × List Char) :=
  if s.length < n then .error "failed to read bytes"
  else .ok (s.take n, s.drop n)

/-- `read_body` (`response.rs:7-19`): parse the header block, then read
exactly the declared number of body bytes.  The returned pair is the body and
the unconsumed remainder of the stream. -/
def read_body (s : List Char) : Except String (List Char × List Char) := do
  let (contentLength, rest) ← parse_header s
  read_exact contentLength rest

/-- Little-endian decimal digits of `n` as characters; the fuel argument (any
bound with `n ≤ fuel`) makes the recursion structural. -/
def natToCharsAux : Nat → Nat → List Char
  | 0, _ => []
  | _ + 1, 0 => []
  | fuel + 1, n + 1 =>
    Char.ofNat (48 + (n + 1) % 10) :: natToCharsAux fuel ((n + 1) / 10)

/-- Decimal rendering of a `usize` (the `{content_length}` interpolation in
`to_payload`). -/
def natToChars (n : Nat) : List Char :=
  if n = 0 then ['0'] else (natToCharsAux n n).reverse

/-- `LspPayload::to_payload` (`payload.rs:22-30`):
`format!("Content-Length: {content_length}\r\n\r\n{content}")` with
`content_length = content.len()` in bytes. -/
def to_payload (content : List Char) : List Char :=
  "Content-Length: ".data ++ natToChars content.length
    ++ "\r\n\r\n".data ++ content

/-! ## Diagnostics positions (`compute_byte_offset`, `notification_handler.rs:111-135`)

`compute_byte_offset` turns a diagnostic's zero-indexed `(row, col)` into a
byte offset into the document text.  The Rust body folds over
`text.lines().take(row + 1).enumerate()`, adding whole lines before `row`,
clamping an out-of-range column on line `row` to `acc + line.len() - 1`, and
finally clamping with `offset.min(text.len() - 1)`.  The two `usize`
subtractions are Rust machine subtractions: they panic in debug builds (and
wrap in release) when the minuend is zero.  They are modelled by `checkedSub`,
whose `none` represents that underflow. -/

/-- `usize` subtraction with the underflow made explicit: `none` models the
debug-build panic / release-build wraparound of `a - b` when `b > a`. -/
def checkedSub (a b : Nat) : Option Nat :=
  if b ≤ a then some (a - b) else none

/-- Split at every `'\n'` (the separators are consumed); always returns one
more segment than there are newlines. -/
def splitOnNl : List Char → List (List Char)
  | [] => [[]]
  | c :: cs =>
    if c = '\n' then [] :: splitOnNl cs
    else
      match splitOnNl cs with
      | [] => [[c]]
      | l :: ls => (c :: l) :: ls

/-- Remove one trailing `'\r'`, as `str::lines` does per line. -/
def stripTrailingCR (l : List Char) : List Char :=
  match l.getLast? with
  | some '\r' => l.dropLast
  | _ => l

/-- `str::lines`: split on `'\n'`, drop the final empty segment produced by a
terminating newline (so the empty text has no lines), strip one trailing
`'\r'` from each line. -/
def rustLines (text : List Char) : List (List Char) :=
  let parts := splitOnNl text
  let parts := if parts.getLast? = some ([] : List Char) then parts.dropLast else parts
  parts.map stripTrailingCR

/-- `text.contains("\r\n")`. -/
def containsCRLF : List Char → Bool
  | '\r' :: '\n' :: _ => true
  | _ :: cs => containsCRLF cs
  | [] => false

/-- The fold closure of `compute_byte_offset` (`notification_handler.rs:119-131`),
with the accumulator threaded through `Option` so an underflowing iteration
poisons the result. -/
def offsetFoldStep (row col endingLen : Nat) (acc : Option Nat)
    (p : Nat × List Char) : Option Nat :=
  match acc with
  | none => none
  | some a =>
    if p.1 = row then
      if p.2.length ≤ col then checkedSub (a + p.2.length) 1
      else some (a + col)
    else some (a + p.2.length + endingLen)

/-- `compute_byte_offset` (`notification_handler.rs:111-135`).  `none` means
the Rust code underflows (panics in a debug build). -/
def compute_byte_offset (text : List Char) (row col : Nat) : Option Nat :=
  let endingLen := if containsCRLF text then 2 else 1
  let ls := rustLines text
  match (ls.take (row + 1)).enum.foldl (offsetFoldStep row col endingLen) (some 0) with
  | none => none
  | some offset => (checkedSub text.length 1).map fun last => min offset last

/-! ## Fan-out channel lifetimes (`LspServer::new`, `LspServer::init_stdio`)

`server.rs:63-87`: `LspServer::new` calls `broadcast::channel` three times —
once for requests (`req_tx`), once for responses (`req_output_tx`), once for
notifications (`notif_tx`) — and hands clones of the same senders to the
returned `ClientChannels`.  `build_lsp` (`lsp.rs:15-27`) runs once at startup;
`init_stdio` (`server.rs:102-142`), which runs once per spawned session,
creates **no** broadcast channel: it only spawns the child process, subscribes
receivers to the cancellation broadcast, and captures clones of the stored
senders for the stdout-reader task (`server.rs:151-152`) and a fresh receiver
of the stored request sender for the stdin task (`server.rs:198`).

Channels are modelled by identity: a fresh-name counter is threaded through
every `broadcast::channel` call; two endpoints refer to the same channel
exactly when they carry the same identifier.  A publication on id `i` is
delivered to every receiver subscribed on id `i`. -/

/-- The channel identifiers held by `ServerChannels` (`server.rs:29-39`). -/
structure ServerChannels where
  req_tx : Nat
  req_output_tx : Nat
  notif_tx : Nat
  deriving DecidableEq, Repr

/-- The channel identifiers held by `ClientChannels` (`server.rs:42-52`). -/
structure ClientChannels where
  req_tx : Nat
  req_output_tx : Nat
  notif_rx : Nat
  deriving DecidableEq, Repr

/-- `LspServer::new` (`server.rs:63-87`): allocate the three broadcast
channels and return both endpoint bundles plus the advanced name counter. -/
def LspServer.new (fresh : Nat) : (ServerChannels × ClientChannels) × Nat :=
  ((⟨fresh, fresh + 1, fresh + 2⟩, ⟨fresh, fresh + 1, fresh + 2⟩), fresh + 3)

/-- The channels a spawned session's tasks are wired to by `init_stdio`. -/
structure SessionWiring where
  /-- Channel the stdin task receives outbound payloads on (`server.rs:198`). -/
  stdinReceivesOn : Nat
  /-- Channel the stdout reader publishes parsed responses to (`server.rs:167`). -/
  stdoutResponsesTo : Nat
  /-- Channel the stdout reader publishes parsed server pushes to (`server.rs:171`). -/
  stdoutPushesTo : Nat
  deriving DecidableEq, Repr

/-- The channel wiring performed by `init_stdio` (`server.rs:102-142`): every
endpoint comes from the stored `ServerChannels`; the name counter is returned
untouched because no `broadcast::channel` call occurs in this function. -/
def init_stdio (ch : ServerChannels) (fresh : Nat) : SessionWiring × Nat :=
  (⟨ch.req_tx, ch.req_output_tx, ch.notif_tx⟩, fresh)

/-! ## Session replacement (`TaskManager::spawn_lsp`, `new_process_manager`)

`task.rs:93-126`: handling a spawn command first sends `KillLsp` on the
cancellation broadcast (`task.rs:98`) — `broadcast::Sender::send` only
enqueues the message and returns immediately — and then calls
`LspServer::init`, whose `init_stdio` spawns the new child process
(`server.rs:108-114`) synchronously.  The old session's process supervisor
(`new_process_manager`, `server.rs:257-279`) is a separate runtime task: it
kills the old child only once its `broadcast_rx.recv()` yields the `KillLsp`
message.  Nothing in `spawn_lsp` awaits that supervisor.

The relevant events of one replacement are modelled as a trace: a trace is
valid when it interleaves the orchestrator's program order
(`sendKill` before `spawnNew`) with the old supervisor's program order
(`recvKill` before `oldExit`) and respects message causality (the broadcast
is received only after it is sent).  The old process is alive until
`oldExit`; the new process is alive from `spawnNew`; the two overlap in a
trace exactly when `spawnNew` precedes `oldExit`. -/

inductive SpawnEvent where
  /-- `broadcast_tx.send(BroadcastMessage::KillLsp)` returns (`task.rs:98`). -/
  | sendKill : SpawnEvent
  /-- `Command::new(&cmd)...spawn()` creates the new child (`server.rs:108-114`). -/
  | spawnNew : SpawnEvent
  /-- The old supervisor's `broadcast_rx.recv()` yields `KillLsp` (`server.rs:267-269`). -/
  | recvKill : SpawnEvent
  /-- The old supervisor's `child.kill().await` completes (`server.rs:270`). -/
  | oldExit : SpawnEvent
  deriving DecidableEq, Repr

/-- Program order of the command handler `spawn_lsp` (`task.rs:98-113`). -/
def orchestratorOrder : List SpawnEvent := [.sendKill, .spawnNew]

/-- Program order of the old session's process supervisor (`server.rs:262-278`). -/
def supervisorOrder : List SpawnEvent := [.recvKill, .oldExit]

/-- `isInterleaving t a b`: `t` interleaves `a` and `b`, preserving the
internal order of each. -/
def isInterleaving : List SpawnEvent → List SpawnEvent → List SpawnEvent → Bool
  | [], [], [] => true
  | [], _, _ => false
  | x :: t, a, b =>
    (match a with
     | y :: a' => x = y && isInterleaving t a' b
     | [] => false)
    ||
    (match b with
     | y :: b' => x = y && isInterleaving t a b'
     | [] => false)

/-- Position of an event in a trace. -/
def eventIndex (t : List SpawnEvent) (e : SpawnEvent) : Nat :=
  List.indexOf e t

/-- A trace the runtime can produce for one session replacement: an
interleaving of the two tasks' program orders in which the broadcast is
received only after it is sent. -/
def validTrace (t : List SpawnEvent) : Bool :=
  isInterleaving t orchestratorOrder supervisorOrder
    && decide (eventIndex t .sendKill < eventIndex t .recvKill)

/-- Both processes are alive at some moment of the trace: the new child is
spawned before the old child's kill completes. -/
def processesOverlap (t : List SpawnEvent) : Bool :=
  decide (eventIndex t .spawnNew < eventIndex t .oldExit)

/-- A well-formed non-Content-Length header line, as a decidable check: no
embedded newline, non-blank after trim, a colon present, and a key other than
`content-length`.  Used to describe header blocks that are missing the
`Content-Length` header. -/
def goodHeaderLine (l : List Char) : Bool :=
  decide ('\n' ∉ l) && decide (rustTrim (l ++ ['\n']) ≠ []) &&
    (match splitOnce ':' (l ++ ['\n']) with
     | some (k, _) => decide (lowercase (rustTrim k) ≠ "content-length".data)
     | none => false)

/-- A header block of `'\n'`-terminated lines followed by the blank line and
the rest of the stream. -/
def headerStream (lines : List (List Char)) (tail : List Char) : List Char :=
  (lines.map fun l => l ++ ['\n']).flatten ++ '\n' :: tail

/-! # Theorems -/

/-! ## Framing lemmas -/

theorem read_line_nl (r : List Char) : read_line ('\n' :: r) = (['\n'], r) := by
  simp [read_line]

theorem read_line_no_nl {l : List Char} (h : '\n' ∉ l) (r : List Char) :
    read_line (l ++ '\n' :: r) = (l ++ ['\n'], r) := by
  induction l with
  | nil => simp [read_line]
  | cons c cs ih =>
    have hc : ¬ c = '\n' := fun e => h (by simp [e])
    have ih' := ih fun hm => h (List.mem_cons_of_mem _ hm)
    simp [read_line, hc, ih']

theorem read_line_crlf (r : List Char) :
    read_line ('\r' :: '\n' :: r) = (['\r', '\n'], r) := by
  simp [read_line]

/-- A character can be at most one of `isDigit`-true and a given
non-digit character. -/
theorem ne_of_digit_of_not_digit {c d : Char} (hc : c.isDigit = true)
    (hd : d.isDigit = false) : c ≠ d := by
  intro e
  rw [e, hd] at hc
  exact absurd hc (by simp)

theorem isWS_eq_false_of_isDigit {c : Char} (h : c.isDigit = true) :
    isWS c = false := by
  have h1 := ne_of_digit_of_not_digit h (show (' ').isDigit = false by decide)
  have h2 := ne_of_digit_of_not_digit h (show ('\t').isDigit = false by decide)
  have h3 := ne_of_digit_of_not_digit h (show ('\n').isDigit = false by decide)
  have h4 := ne_of_digit_of_not_digit h (show ('\r').isDigit = false by decide)
  simp [isWS, h1, h2, h3, h4]

/-- A non-whitespace member of a list survives `dropWhile isWS`. -/
theorem mem_dropWhile_isWS :
    ∀ {l : List Char} {c : Char}, c ∈ l → isWS c = false →
      c ∈ l.dropWhile isWS := by
  intro l
  induction l with
  | nil => intro c h; simp at h
  | cons a t ih =>
    intro c hc hws
    by_cases ha : isWS a = true
    · rw [List.dropWhile_cons_of_pos ha]
      rcases List.mem_cons.mp hc with rfl | hm
      · rw [hws] at ha; exact absurd ha (by simp)
      · exact ih hm hws
    · rw [List.dropWhile_cons_of_neg ha]
      exact hc

/-- A list containing a non-whitespace character does not trim to empty. -/
theorem rustTrim_ne_nil {l : List Char} {c : Char} (hc : c ∈ l)
    (hws : isWS c = false) : rustTrim l ≠ [] := by
  intro h
  have h1 : c ∈ (l.dropWhile isWS).reverse.dropWhile isWS := by
    apply mem_dropWhile_isWS _ hws
    exact List.mem_reverse.mpr (mem_dropWhile_isWS hc hws)
  rw [rustTrim] at h
  rw [List.reverse_eq_nil_iff.mp h] at h1
  simp at h1

/-- `dropWhile isWS` fixes a list whose head is not whitespace. -/
theorem dropWhile_isWS_eq_self {l : List Char}
    (h : ∀ c, l.head? = some c → isWS c = false) : l.dropWhile isWS = l := by
  cases l with
  | nil => rfl
  | cons a t => exact List.dropWhile_cons_of_neg (by simp [h a rfl])

/-- Trimming a leading space and a trailing `"\r\n"` from around a nonempty
all-digit run yields the run itself. -/
theorem rustTrim_space_digits_crlf {ds : List Char} (hne : ds ≠ [])
    (hd : ∀ c ∈ ds, c.isDigit = true) :
    rustTrim (' ' :: (ds ++ ['\r', '\n'])) = ds := by
  obtain ⟨d, t, rfl⟩ := List.exists_cons_of_ne_nil hne
  have hdws : isWS d = false := isWS_eq_false_of_isDigit (hd d (by simp))
  rw [rustTrim, List.cons_append, List.dropWhile_cons_of_pos (by decide),
    List.dropWhile_cons_of_neg (by simp [hdws])]
  have h1 : (d :: (t ++ ['\r', '\n'])).reverse
      = '\n' :: '\r' :: (t.reverse ++ [d]) := by simp
  rw [h1, List.dropWhile_cons_of_pos (by decide),
    List.dropWhile_cons_of_pos (by decide)]
  rw [dropWhile_isWS_eq_self ?head]
  case head =>
    intro c hc
    cases ht : t.reverse with
    | nil =>
      rw [ht] at hc
      simp at hc
      rw [← hc]
      exact hdws
    | cons e r =>
      rw [ht] at hc
      simp at hc
      rw [← hc]
      have he : e ∈ t := by
        have : e ∈ t.reverse := by rw [ht]; simp
        exact List.mem_reverse.mp this
      exact isWS_eq_false_of_isDigit (hd e (List.mem_cons_of_mem _ he))
  simp

/-- Splitting at the first separator after a separator-free prefix. -/
theorem splitOnce_append {a : List Char} (h : ':' ∉ a) (b : List Char) :
    splitOnce ':' (a ++ ':' :: b) = some (a, b) := by
  induction a with
  | nil => simp [splitOnce]
  | cons c cs ih =>
    have hc : ¬ c = ':' := fun e => h (by simp [e])
    have ih' := ih fun hm => h (List.mem_cons_of_mem _ hm)
    simp [splitOnce, hc, ih']

/-! ## Decimal rendering round-trips through parsing -/

theorem natToCharsAux_eq_digits :
    ∀ (fuel n : Nat), n ≤ fuel →
      natToCharsAux fuel n = (Nat.digits 10 n).map fun d => Char.ofNat (48 + d) := by
  intro fuel
  induction fuel with
  | zero =>
    intro n hn
    interval_cases n
    simp [natToCharsAux]
  | succ f ih =>
    intro n hn
    cases n with
    | zero => simp [natToCharsAux]
    | succ m =>
      rw [natToCharsAux]
      rw [Nat.digits_def' (by norm_num : (1:ℕ) < 10) (Nat.succ_pos m)]
      rw [List.map_cons]
      congr 1
      exact ih ((m + 1) / 10) (by
        have := Nat.div_lt_self (Nat.succ_pos m) (by norm_num : (1:ℕ) < 10)
        omega)

theorem digitChar_isDigit {d : Nat} (h : d < 10) :
    (Char.ofNat (48 + d)).isDigit = true := by
  interval_cases d <;> decide

theorem charDigit_digitChar {d : Nat} (h : d < 10) :
    charDigit (Char.ofNat (48 + d)) = d := by
  interval_cases d <;> decide

theorem natToChars_ne_nil (n : Nat) : natToChars n ≠ [] := by
  rw [natToChars]
  by_cases h : n = 0
  · simp [h]
  · rw [if_neg h, natToCharsAux_eq_digits n n le_rfl]
    simp [Nat.digits_ne_nil_iff_ne_zero.mpr h]

theorem natToChars_all_digits (n : Nat) :
    ∀ c ∈ natToChars n, c.isDigit = true := by
  intro c hc
  rw [natToChars] at hc
  by_cases h : n = 0
  · rw [if_pos h] at hc
    simp at hc
    rw [hc]; decide
  · rw [if_neg h, natToCharsAux_eq_digits n n le_rfl] at hc
    rw [List.mem_reverse, List.mem_map] at hc
    obtain ⟨d, hd, rfl⟩ := hc
    exact digitChar_isDigit (Nat.digits_lt_base (by norm_num) hd)

theorem foldl_reverse_ofDigits (l : List Nat) :
    l.reverse.foldl (fun a d => 10 * a + d) 0 = Nat.ofDigits 10 l := by
  induction l with
  | nil => simp [Nat.ofDigits]
  | cons d t ih =>
    rw [List.reverse_cons, List.foldl_append, ih, Nat.ofDigits_cons]
    simp
    ring

theorem parseNat_natToChars (n : Nat) : parseNat (natToChars n) = some n := by
  by_cases h : n = 0
  · subst h; decide
  · have hne := natToChars_ne_nil n
    have hall := natToChars_all_digits n
    rw [parseNat, if_pos]
    · congr 1
      rw [natToChars, if_neg h, natToCharsAux_eq_digits n n le_rfl]
      rw [← List.map_reverse, List.foldl_map]
      rw [List.foldl_ext
        (fun (a : Nat) (d : Nat) => 10 * a + charDigit (Char.ofNat (48 + d)))
        (fun (a : Nat) (d : Nat) => 10 * a + d) 0
        (fun a d hd => by
          show 10 * a + charDigit (Char.ofNat (48 + d)) = 10 * a + d
          rw [charDigit_digitChar
            (Nat.digits_lt_base (by norm_num) (List.mem_reverse.mp hd))])]
      rw [foldl_reverse_ofDigits, Nat.ofDigits_digits]
    · rw [Bool.and_eq_true, List.all_eq_true]
      constructor
      · simpa using hne
      · exact hall

/-! ## C4 — header block without Content-Length -/

/-- Processing well-formed non-Content-Length header lines leaves the
accumulated length untouched and stops at the blank line. -/
theorem parse_header_loop_skips_good_lines :
    ∀ (lines : List (List Char)) (fuel acc : Nat) (tail : List Char),
      (∀ l ∈ lines, goodHeaderLine l = true) →
      (headerStream lines tail).length < fuel →
      parse_header_loop fuel (headerStream lines tail) acc = .ok (acc, tail) := by
  intro lines
  induction lines with
  | nil =>
    intro fuel acc tail _ hfuel
    cases fuel with
    | zero => exact absurd hfuel (by omega)
    | succ f =>
      have hs : headerStream [] tail = '\n' :: tail := by
        simp [headerStream]
      rw [hs, parse_header_loop, read_line_nl]
      simp only
      rw [if_pos (show rustTrim ['\n'] = ([] : List Char) from by decide)]
  | cons l ls ih =>
    intro fuel acc tail hgood hfuel
    have hg := hgood l (List.mem_cons_self _ _)
    rw [goodHeaderLine, Bool.and_eq_true, Bool.and_eq_true] at hg
    obtain ⟨⟨hnl, hblank⟩, hkey⟩ := hg
    have hnl' : '\n' ∉ l := of_decide_eq_true hnl
    have hblank' : rustTrim (l ++ ['\n']) ≠ [] := of_decide_eq_true hblank
    have hs : headerStream (l :: ls) tail = l ++ '\n' :: headerStream ls tail := by
      simp [headerStream]
    cases fuel with
    | zero => exact absurd hfuel (by omega)
    | succ f =>
      rcases hsp : splitOnce ':' (l ++ ['\n']) with _ | ⟨k, v⟩
      · rw [hsp] at hkey
        exact absurd hkey (by simp)
      · rw [hsp] at hkey
        have hne : ¬ lowercase (rustTrim k) = "content-length".data := by
          have := of_decide_eq_true (by simpa using hkey :
            decide (lowercase (rustTrim k) ≠ "content-length".data) = true)
          exact this
        rw [hs, parse_header_loop, read_line_no_nl hnl']
        simp only [hsp, if_neg hblank', if_neg hne]
        apply ih f acc tail (fun m hm => hgood m (List.mem_cons_of_mem _ hm))
        rw [hs, List.length_append] at hfuel
        simp at hfuel
        omega

/-- C4 counterexample: a stream whose header block (one well-formed header
line, then the blank line) contains no `Content-Length` header does NOT fail:
`parse_header` initializes the length to `0` and returns it unchanged when the
header is absent (`response.rs:24,45`), so `read_body` succeeds with an empty
body.  The claim's `FramingError` outcome does not occur. -/
theorem missing_content_length_succeeds_counterexample :
    read_body ("X-Custom: 1".data ++ ['\r', '\n', '\r', '\n'] ++ "BODYBYTES".data)
      = .ok ([], "BODYBYTES".data) := by
  rfl

/-- C4 (amended): for every input stream whose header block consists of
well-formed header lines (colon present, non-blank) none of which is a
`Content-Length` header, the framing read SUCCEEDS with the length defaulted
to `0`: it returns an empty body and consumes no byte after the blank line.
(`FramingError` arises only for a header line with no colon separator, an
unparsable `Content-Length` value, or a stream ending before the declared
length is satisfied.) -/
theorem read_body_missing_content_length
    (lines : List (List Char)) (tail : List Char)
    (hgood : ∀ l ∈ lines, goodHeaderLine l = true) :
    read_body (headerStream lines tail) = .ok ([], tail) := by
  have hph : parse_header (headerStream lines tail) = .ok (0, tail) :=
    parse_header_loop_skips_good_lines lines _ 0 tail hgood (Nat.lt_succ_self _)
  rw [read_body, hph]
  show read_exact 0 tail = Except.ok ([], tail)
  unfold read_exact
  rw [if_neg (Nat.not_lt_zero _)]
  simp

/-- C4 witness: the single-line header block `X-Custom: 1` with body `BODY`. -/
theorem read_body_missing_content_length_witness :
    (∀ l ∈ ["X-Custom: 1".data], goodHeaderLine l = true)
    ∧ read_body (headerStream ["X-Custom: 1".data] "BODY".data)
      = .ok ([], "BODY".data) :=
  ⟨by decide,
    read_body_missing_content_length ["X-Custom: 1".data] "BODY".data (by decide)⟩

/-! ## C5 — framing round-trip -/

/-- C5: For every body byte sequence — embedded newlines included — and every
continuation of the stream, framing the payload produced by the message
builder (`Content-Length: <n>\r\n\r\n<body>` with `n` the body's byte length)
recovers exactly the original body bytes and leaves the continuation
unconsumed. -/
theorem framing_roundtrip (content rest : List Char) :
    read_body (to_payload content ++ rest) = .ok (content, rest) := by
  have hds_digits := natToChars_all_digits content.length
  have hds_ne := natToChars_ne_nil content.length
  have hnl : '\n' ∉ "Content-Length: ".data ++ natToChars content.length ++ ['\r'] := by
    intro hm
    rcases List.mem_append.mp hm with hm | hm
    · rcases List.mem_append.mp hm with hm | hm
      · exact absurd hm (by decide)
      · exact absurd (hds_digits _ hm) (by decide)
    · simp at hm
  have hstream : to_payload content ++ rest
      = ("Content-Length: ".data ++ natToChars content.length ++ ['\r'])
        ++ '\n' :: ('\r' :: '\n' :: (content ++ rest)) := by
    rw [to_payload]
    simp
  have hsplit_eq : ("Content-Length: ".data ++ natToChars content.length ++ ['\r'])
        ++ ['\n']
      = "Content-Length".data
        ++ ':' :: (' ' :: (natToChars content.length ++ ['\r', '\n'])) := by
    have hcl : "Content-Length: ".data = "Content-Length".data ++ [':', ' '] := by
      rfl
    rw [hcl]
    simp
  have hph : parse_header (("Content-Length: ".data ++ natToChars content.length
        ++ ['\r']) ++ '\n' :: ('\r' :: '\n' :: (content ++ rest)))
      = .ok (content.length, content ++ rest) := by
    rw [parse_header, parse_header_loop, read_line_no_nl hnl]
    simp only
    rw [if_neg (rustTrim_ne_nil
      (c := 'C') (by left) (by decide))]
    rw [hsplit_eq, splitOnce_append (by decide)]
    simp only
    rw [if_pos (by decide)]
    rw [rustTrim_space_digits_crlf hds_ne hds_digits, parseNat_natToChars]
    simp only
    have hlen : (("Content-Length: ".data ++ natToChars content.length ++ ['\r'])
          ++ '\n' :: ('\r' :: '\n' :: (content ++ rest))).length
        = (("Content-Length: ".data ++ natToChars content.length ++ ['\r']).length
          + ('\r' :: '\n' :: (content ++ rest)).length) + 1 := by
      rw [List.length_append]
      simp only [List.length_cons]
      omega
    rw [hlen, parse_header_loop, read_line_crlf]
    simp only
    rw [if_pos (show rustTrim ['\r', '\n'] = ([] : List Char) from by decide)]
  rw [read_body, hstream, hph]
  show read_exact content.length (content ++ rest) = Except.ok (content, rest)
  unfold read_exact
  rw [if_neg (by rw [List.length_append]; omega), List.take_left, List.drop_left]

/-! ## C1 — id-based response correlation -/

/-- C1: For every blocking request and every sequence of raw bodies delivered
on the response fan-out channel (each within the 5-second window), the request
returns the decoded result of exactly the first response whose id equals the
request's id: every earlier delivery that is unparsable or carries a different
id is ignored and never terminates the wait.  Because the statement holds for
every request id over the same delivered sequence — the fan-out channel gives
each subscriber its own copy — concurrently outstanding blocking requests each
receive their own matching response regardless of arrival order. -/
theorem blocking_request_correlates_by_id {T : Type}
    (decode : Json → Except String T) (reqId reqPayload : String)
    (pre post : List (Nat × Delivered)) (wait : Nat) (r : RpcResponse)
    (hpre : ∀ p ∈ pre, deliveredMatches reqId p.2 = false)
    (hpreWait : ∀ p ∈ pre, p.1 ≤ 5)
    (hwait : wait ≤ 5) (hid : r.id = reqId) :
    send_blocking_request decode reqId reqPayload
      (pre ++ (wait, .response r) :: post) = decodeSuccess decode r := by
  induction pre with
  | nil =>
    simp [List.nil_append, send_blocking_request,
      if_neg (Nat.not_lt.mpr hwait), hid]
  | cons p pre ih =>
    obtain ⟨w, m⟩ := p
    have hw : ¬ 5 < w := Nat.not_lt.mpr (hpreWait (w, m) (List.mem_cons_self _ _))
    have hm := hpre (w, m) (List.mem_cons_self _ _)
    have ih' := ih (fun q hq => hpre q (List.mem_cons_of_mem _ hq))
      (fun q hq => hpreWait q (List.mem_cons_of_mem _ hq))
    cases m with
    | response r' =>
      have hne : ¬ r'.id = reqId := by
        simpa [deliveredMatches] using hm
      simpa [send_blocking_request, if_neg hw, if_neg hne] using ih'
    | unparsable raw =>
      simpa [send_blocking_request, if_neg hw] using ih'

/-- C1 witness: two blocking requests with ids `"a"` and `"b"` outstanding on
the same session; the response to `"b"` arrives first, yet the request with id
`"a"` receives the `"a"` response (and, symmetrically, the same schedule gives
the `"b"` request its own response). -/
theorem blocking_request_correlates_by_id_witness :
    send_blocking_request (T := Json) .ok "a" "payload-a"
      ([(1, .response ⟨"b", .success (.str "B")⟩)] ++
        (1, .response ⟨"a", .success (.str "A")⟩) :: []) = .ok (.str "A") :=
  blocking_request_correlates_by_id .ok "a" "payload-a"
    [(1, .response ⟨"b", .success (.str "B")⟩)] [] 1 ⟨"a", .success (.str "A")⟩
    (by decide) (by decide) (by decide) rfl

/-! ## C6 — request timeout -/

/-- C6: A blocking request over a delivery schedule containing no response
with a matching id fails with the timeout error naming the request (its
serialized payload is embedded in the message) instead of waiting forever:
either some 5-second receive window elapses with nothing delivered, or the
schedule is exhausted and the next window elapses.  Moreover (second
conjunct), whenever a receive window before the first matching response
exceeds 5 seconds, the request fails with the same timeout error outright. -/
theorem blocking_request_times_out {T : Type}
    (decode : Json → Except String T) (reqId reqPayload : String) :
    (∀ sched : List (Nat × Delivered),
      (∀ p ∈ sched, deliveredMatches reqId p.2 = false) →
      send_blocking_request decode reqId reqPayload sched
        = .error (timeoutMsg reqPayload))
    ∧ (∀ (pre : List (Nat × Delivered)) (wait : Nat) (m : Delivered)
        (post : List (Nat × Delivered)),
      (∀ p ∈ pre, deliveredMatches reqId p.2 = false) → 5 < wait →
      send_blocking_request decode reqId reqPayload (pre ++ (wait, m) :: post)
        = .error (timeoutMsg reqPayload)) := by
  constructor
  · intro sched h
    induction sched with
    | nil => rfl
    | cons p sched ih =>
      obtain ⟨w, m⟩ := p
      have ih' := ih (fun q hq => h q (List.mem_cons_of_mem _ hq))
      have hm := h (w, m) (List.mem_cons_self _ _)
      by_cases hw : 5 < w
      · simp [send_blocking_request, if_pos hw]
      · cases m with
        | response r =>
          have hne : ¬ r.id = reqId := by
            simpa [deliveredMatches] using hm
          simpa [send_blocking_request, if_neg hw, if_neg hne] using ih'
        | unparsable raw =>
          simpa [send_blocking_request, if_neg hw] using ih'
  · intro pre wait m post hpre hwait
    induction pre with
    | nil => simp [send_blocking_request, if_pos hwait]
    | cons p pre ih =>
      obtain ⟨w, m'⟩ := p
      have ih' := ih (fun q hq => hpre q (List.mem_cons_of_mem _ hq))
      have hm := hpre (w, m') (List.mem_cons_self _ _)
      by_cases hw : 5 < w
      · simp [send_blocking_request, if_pos hw]
      · cases m' with
        | response r =>
          have hne : ¬ r.id = reqId := by
            simpa [deliveredMatches] using hm
          simpa [send_blocking_request, if_neg hw, if_neg hne] using ih'
        | unparsable raw =>
          simpa [send_blocking_request, if_neg hw] using ih'

/-- C6 witness: a request with id `"a"` against a schedule of one unmatching
response and one unparsable body fails with the timeout error naming its
payload; and a schedule whose first delivery needs 6 seconds times out even
though a matching response follows it. -/
theorem blocking_request_times_out_witness :
    send_blocking_request (T := Json) .ok "a" "payload-a"
      [(2, .response ⟨"b", .success .null⟩), (3, .unparsable "garbage")]
      = .error (timeoutMsg "payload-a")
    ∧ send_blocking_request (T := Json) .ok "a" "payload-a"
      ([] ++ (6, .response ⟨"a", .success .null⟩) :: [])
      = .error (timeoutMsg "payload-a") :=
  ⟨(blocking_request_times_out .ok "a" "payload-a").1
      [(2, .response ⟨"b", .success .null⟩), (3, .unparsable "garbage")]
      (by decide),
    (blocking_request_times_out .ok "a" "payload-a").2
      [] 6 (.response ⟨"a", .success .null⟩) [] (by decide) (by decide)⟩

/-! ## C8 — two-tier completion parsing -/

/-- The spec's example completion response body,
`[{"label":"SELECT"},{"label":"FROM"}]`. -/
def exampleCompletionBody : Json :=
  .arr [.obj [("label", .str "SELECT")], .obj [("label", .str "FROM")]]

/-- C8 counterexample: the claim (and spec §8) says the body
`[{"label":"SELECT"},{"label":"FROM"}]` yields its candidates via the
fallback parser, i.e. that the strict decode fails on it.  It does not: a
JSON array of objects with a string `label` is exactly the `Array` variant of
the standard completion-response shape (`lsp_types::CompletionItem` requires
only `label`; `serde` defaults every other field), so the strict first tier
succeeds with `["SELECT", "FROM"]` and the fallback is never consulted. -/
theorem completion_example_strict_tier_counterexample :
    strictCompletionLabels exampleCompletionBody = some ["SELECT", "FROM"]
    ∧ request_completion exampleCompletionBody = .ok ["SELECT", "FROM"] := by
  constructor <;> rfl

/-- C8 (amended): completion-response parsing first attempts the strict
decode into the standard completion-response shape (array of items or a
wrapped list); only if that fails is the payload treated as a generic JSON
array of objects with the string `label` of each extracted; a parse error
arises only when both tiers fail.  The body
`[{"label":"SELECT"},{"label":"FROM"}]` yields `["SELECT", "FROM"]` — via the
strict tier, not the fallback, since it is a valid array of completion
items. -/
theorem completion_two_tier_parsing :
    (∀ v ls, strictCompletionLabels v = some ls → request_completion v = .ok ls)
    ∧ (∀ v ls, strictCompletionLabels v = none →
        fallbackCompletionLabels v = some ls → request_completion v = .ok ls)
    ∧ (∀ v, strictCompletionLabels v = none → fallbackCompletionLabels v = none →
        request_completion v = .error completionParseError)
    ∧ request_completion exampleCompletionBody = .ok ["SELECT", "FROM"]
    ∧ strictCompletionLabels exampleCompletionBody = some ["SELECT", "FROM"] := by
  refine ⟨?_, ?_, ?_, rfl, rfl⟩
  · intro v ls h
    simp [request_completion, h]
  · intro v ls hs hf
    simp [request_completion, hs, hf]
  · intro v hs hf
    simp [request_completion, hs, hf]

/-- C8 witness: the tiers applied at concrete inputs — a wrapped completion
list `{"isIncomplete": false, "items": [{"label":"WHERE"}]}` is accepted by
the strict tier, and a payload failing both tiers produces the parse error. -/
theorem completion_two_tier_parsing_witness :
    request_completion
      (.obj [("isIncomplete", .bool false),
             ("items", .arr [.obj [("label", .str "WHERE")]])]) = .ok ["WHERE"]
    ∧ request_completion (.str "nonsense") = .error completionParseError :=
  ⟨completion_two_tier_parsing.1
      (.obj [("isIncomplete", .bool false),
             ("items", .arr [.obj [("label", .str "WHERE")]])]) ["WHERE"] rfl,
    completion_two_tier_parsing.2.2.1 (.str "nonsense") rfl rfl⟩

/-! ## C9 — completion parse failure surfaces as empty candidates -/

/-- C9: For every completion response body matching neither the strict
completion-response shape nor the fallback array-of-objects-with-string-label
shape, `request_completion` produces a parse error as a value (the model is a
total function — no panic), and `complete_with_logging` surfaces it to its
caller as `(0, [])` — an empty candidate list — with the failure appended to
the log. -/
theorem completion_parse_failure_yields_empty_candidates
    (v : Json) (tokenStart : Nat) (log : List String)
    (hs : strictCompletionLabels v = none)
    (hf : fallbackCompletionLabels v = none) :
    request_completion v = .error completionParseError
    ∧ complete_with_logging (complete_lsp_result tokenStart (request_completion v)) log
      = ((0, []), log ++ [completionParseError]) := by
  have herr : request_completion v = .error completionParseError := by
    simp [request_completion, hs, hf]
  exact ⟨herr, by simp [herr, complete_lsp_result, complete_with_logging]⟩

/-- C9 witness: the body `{"unexpected": 1}` (an object that is not a
completion list) matches neither shape; with an empty log the completer
returns no candidates and logs the parse failure. -/
theorem completion_parse_failure_yields_empty_candidates_witness :
    strictCompletionLabels (.obj [("unexpected", .num 1)]) = none
    ∧ fallbackCompletionLabels (.obj [("unexpected", .num 1)]) = none
    ∧ complete_with_logging
        (complete_lsp_result 4 (request_completion (.obj [("unexpected", .num 1)]))) []
      = ((0, []), [completionParseError]) :=
  ⟨rfl, rfl,
    (completion_parse_failure_yields_empty_candidates
      (.obj [("unexpected", .num 1)]) 4 [] rfl rfl).2⟩

/-! ## C10 — handshake failure leaves the session uninitialized -/

/-- C10: If any step of the session handshake fails — the blocking
`initialize` request, the `initialized` notification send, or the `didOpen`
notification send — `init_lsp_server` returns that error and the
`initialized` flag, `false` beforehand, is left `false`; consequently
`is_initialized` still reports `false` and `LspCompleter::complete` routes
every line to local command completion instead of the protocol client. -/
theorem handshake_failure_leaves_uninitialized (env : HandshakeEnv)
    (h : (∃ e, env.initializeResult = .error e)
      ∨ (∃ e, env.initializedSend = .error e)
      ∨ (∃ e, env.didOpenSend = .error e)) :
    (∃ e, (init_lsp_server env false).1 = .error e)
    ∧ (init_lsp_server env false).2 = false
    ∧ ∀ line, complete_route line false = Route.command := by
  have hroute : ∀ line, complete_route line false = Route.command := by
    intro line
    unfold complete_route
    cases is_maybe_command line <;> simp
  obtain ⟨init, sendInit, sendOpen⟩ := env
  rcases h with ⟨e, he⟩ | ⟨e, he⟩ | ⟨e, he⟩ <;> subst he
  · exact ⟨⟨e, rfl⟩, rfl, hroute⟩
  · cases init with
    | error e' => exact ⟨⟨e', rfl⟩, rfl, hroute⟩
    | ok v => exact ⟨⟨e, rfl⟩, rfl, hroute⟩
  · cases init with
    | error e' => exact ⟨⟨e', rfl⟩, rfl, hroute⟩
    | ok v =>
      cases sendInit with
      | error e' => exact ⟨⟨e', rfl⟩, rfl, hroute⟩
      | ok u => exact ⟨⟨e, rfl⟩, rfl, hroute⟩

/-- C10 witness: a handshake whose `initialized` notification send fails
leaves the flag `false` and the completer on the command route. -/
theorem handshake_failure_leaves_uninitialized_witness :
    (∃ e, (init_lsp_server ⟨.ok .null, .error "channel closed", .ok ()⟩ false).1
      = .error e)
    ∧ (init_lsp_server ⟨.ok .null, .error "channel closed", .ok ()⟩ false).2 = false
    ∧ complete_route "SELECT * FR" false = Route.command := by
  have h := handshake_failure_leaves_uninitialized
    ⟨.ok .null, .error "channel closed", .ok ()⟩
    (Or.inr (Or.inl ⟨"channel closed", rfl⟩))
  exact ⟨h.1, h.2.1, h.2.2 "SELECT * FR"⟩

/-! ## C7 — diagnostic position clamping -/

theorem splitOnNl_ne_nil : ∀ t : List Char, splitOnNl t ≠ [] := by
  intro t
  induction t with
  | nil => simp [splitOnNl]
  | cons c cs ih =>
    rw [splitOnNl]
    by_cases hc : c = '\n'
    · simp [hc]
    · rw [if_neg hc]
      rcases h : splitOnNl cs with _ | ⟨l, ls⟩
      · simp
      · simp

theorem splitOnNl_eq_singleton_nil : ∀ {t : List Char}, splitOnNl t = [[]] → t = [] := by
  intro t h
  cases t with
  | nil => rfl
  | cons c cs =>
    rw [splitOnNl] at h
    by_cases hc : c = '\n'
    · rw [if_pos hc] at h
      simp at h
      exact absurd h (splitOnNl_ne_nil cs)
    · rw [if_neg hc] at h
      rcases h2 : splitOnNl cs with _ | ⟨l, ls⟩
      · exact absurd h2 (splitOnNl_ne_nil cs)
      · rw [h2] at h
        simp at h

/-- A nonempty text has at least one line. -/
theorem rustLines_ne_nil {text : List Char} (h : text ≠ []) :
    rustLines text ≠ [] := by
  rw [rustLines]
  intro hmap
  rw [List.map_eq_nil_iff] at hmap
  by_cases hlast : (splitOnNl text).getLast? = some ([] : List Char)
  · rw [if_pos hlast] at hmap
    rcases hp : splitOnNl text with _ | ⟨l, ls⟩
    · exact splitOnNl_ne_nil text hp
    · rw [hp] at hmap hlast
      cases ls with
      | nil =>
        simp at hlast
        exact h (splitOnNl_eq_singleton_nil (by rw [hp, hlast]))
      | cons m ms => simp [List.dropLast] at hmap
  · rw [if_neg hlast] at hmap
    exact splitOnNl_ne_nil text hmap

/-- Once past the diagnostic's row, the fold only accumulates. -/
theorem foldl_offset_high_index (row col e : Nat) :
    ∀ (t : List (List Char)) (k a : Nat), row < k →
      ∃ o, (List.enumFrom k t).foldl (offsetFoldStep row col e) (some a) = some o := by
  intro t
  induction t with
  | nil => intro k a _; exact ⟨a, rfl⟩
  | cons l t ih =>
    intro k a hk
    have hne : ¬ k = row := by omega
    rw [List.enumFrom, List.foldl_cons]
    have hstep : offsetFoldStep row col e (some a) (k, l)
        = some (a + l.length + e) := by
      show (if k = row then
          if l.length ≤ col then checkedSub (a + l.length) 1 else some (a + col)
        else some (a + l.length + e)) = some (a + l.length + e)
      rw [if_neg hne]
    rw [hstep]
    exact ih (k + 1) _ (by omega)

/-- With a strictly positive accumulator the fold cannot underflow. -/
theorem foldl_offset_pos (row col e : Nat) (he : 1 ≤ e) :
    ∀ (t : List (List Char)) (k a : Nat), 1 ≤ a →
      ∃ o, (List.enumFrom k t).foldl (offsetFoldStep row col e) (some a) = some o := by
  intro t
  induction t with
  | nil => intro k a _; exact ⟨a, rfl⟩
  | cons l t ih =>
    intro k a ha
    rw [List.enumFrom, List.foldl_cons]
    by_cases hk : k = row
    · by_cases hcol : l.length ≤ col
      · have hstep : offsetFoldStep row col e (some a) (k, l)
            = some (a + l.length - 1) := by
          show (if k = row then
              if l.length ≤ col then checkedSub (a + l.length) 1 else some (a + col)
            else some (a + l.length + e)) = some (a + l.length - 1)
          rw [if_pos hk, if_pos hcol, checkedSub, if_pos (by omega)]
        rw [hstep]
        exact foldl_offset_high_index row col e t (k + 1) _ (by omega)
      · have hstep : offsetFoldStep row col e (some a) (k, l)
            = some (a + col) := by
          show (if k = row then
              if l.length ≤ col then checkedSub (a + l.length) 1 else some (a + col)
            else some (a + l.length + e)) = some (a + col)
          rw [if_pos hk, if_neg hcol]
        rw [hstep]
        exact foldl_offset_high_index row col e t (k + 1) _ (by omega)
    · have hstep : offsetFoldStep row col e (some a) (k, l)
          = some (a + l.length + e) := by
        show (if k = row then
            if l.length ≤ col then checkedSub (a + l.length) 1 else some (a + col)
          else some (a + l.length + e)) = some (a + l.length + e)
        rw [if_neg hk]
      rw [hstep]
      exact ih (k + 1) _ (by omega)

/-- The whole fold from zero succeeds when the first line is nonempty if the
diagnostic targets line 0. -/
theorem foldl_offset_start (row col e : Nat) (he : 1 ≤ e)
    (l0 : List Char) (t : List (List Char)) (h0 : row = 0 → l0 ≠ []) :
    ∃ v, (List.enumFrom 0 (l0 :: t)).foldl (offsetFoldStep row col e) (some 0)
      = some v := by
  rw [List.enumFrom, List.foldl_cons]
  by_cases hrow : (0 : Nat) = row
  · have hl0 : 1 ≤ l0.length := by
      have hne := h0 hrow.symm
      cases l0 with
      | nil => exact absurd rfl hne
      | cons a b => simp
    by_cases hcol : l0.length ≤ col
    · have hstep : offsetFoldStep row col e (some 0) (0, l0)
          = some (0 + l0.length - 1) := by
        show (if (0 : Nat) = row then
            if l0.length ≤ col then checkedSub (0 + l0.length) 1 else some (0 + col)
          else some (0 + l0.length + e)) = some (0 + l0.length - 1)
        rw [if_pos hrow, if_pos hcol, checkedSub, if_pos (by omega)]
      rw [hstep]
      exact foldl_offset_high_index row col e t 1 _ (by omega)
    · have hstep : offsetFoldStep row col e (some 0) (0, l0)
          = some (0 + col) := by
        show (if (0 : Nat) = row then
            if l0.length ≤ col then checkedSub (0 + l0.length) 1 else some (0 + col)
          else some (0 + l0.length + e)) = some (0 + col)
        rw [if_pos hrow, if_neg hcol]
      rw [hstep]
      exact foldl_offset_high_index row col e t 1 _ (by omega)
  · have hstep : offsetFoldStep row col e (some 0) (0, l0)
        = some (0 + l0.length + e) := by
      show (if (0 : Nat) = row then
          if l0.length ≤ col then checkedSub (0 + l0.length) 1 else some (0 + col)
        else some (0 + l0.length + e)) = some (0 + l0.length + e)
      rw [if_neg hrow]
    rw [hstep]
    exact foldl_offset_pos row col e he t 1 _ (by omega)

/-- C7 counterexample: `compute_byte_offset` does NOT return for every text
and position — the claim's universal safety statement fails.  On the text
`"\nx"` at line 0 (whose line is empty) the `acc + line.len() - 1` clamp
computes `0 + 0 - 1`, and on the empty text the final `text.len() - 1` clamp
computes `0 - 1`: both underflow `usize` (a panic in debug builds), which the
model renders as `none`. -/
theorem compute_byte_offset_underflow_counterexample :
    compute_byte_offset ('\n' :: "x".data) 0 0 = none
    ∧ compute_byte_offset [] 0 0 = none := by
  constructor <;> rfl

/-- C7 (amended): for every nonempty document text and every diagnostic
position whose target line, when it is line 0, is nonempty,
`compute_byte_offset` returns without underflowing, and the returned offset
never exceeds the text's final byte offset (out-of-range columns clamp within
their line and an out-of-range line clamps to the final byte, as the spec's
own examples show: for `"foo\nbar\nbaz"`, line 1 character 0 ↦ 4, line 2
character 2 ↦ 10, and the out-of-range line 7 character 7 ↦ 10).  The
exception forced by the counterexample: the empty text, and line-0 diagnostics
on a text whose first line is empty, underflow instead of clamping. -/
theorem compute_byte_offset_clamps_within_text :
    (∀ (text : List Char) (row col : Nat), text ≠ [] →
      ¬(row = 0 ∧ (rustLines text).head? = some ([] : List Char)) →
      ∃ o, compute_byte_offset text row col = some o ∧ o + 1 ≤ text.length)
    ∧ compute_byte_offset "foo\nbar\nbaz".data 1 0 = some 4
    ∧ compute_byte_offset "foo\nbar\nbaz".data 2 2 = some 10
    ∧ compute_byte_offset "foo\nbar\nbaz".data 7 7 = some 10 := by
  refine ⟨?_, rfl, rfl, rfl⟩
  intro text row col htext hrow
  have hlen1 : 1 ≤ text.length := List.length_pos.mpr htext
  have hend : 1 ≤ (if containsCRLF text then 2 else 1) := by split <;> omega
  obtain ⟨l0, lt, hl⟩ := List.exists_cons_of_ne_nil (rustLines_ne_nil htext)
  have h0 : row = 0 → l0 ≠ [] := by
    intro hr he
    exact hrow ⟨hr, by rw [hl, he]; rfl⟩
  have hfold : ∃ v, (((rustLines text).take (row + 1)).enum).foldl
      (offsetFoldStep row col (if containsCRLF text then 2 else 1)) (some 0)
      = some v := by
    rw [hl, List.take_succ_cons, List.enum]
    exact foldl_offset_start row col _ hend l0 (lt.take row) h0
  obtain ⟨v, hfold⟩ := hfold
  refine ⟨min v (text.length - 1), ?_, by omega⟩
  simp only [compute_byte_offset]
  rw [hfold, checkedSub, if_pos hlen1]
  rfl

/-- C7 witness: text `"ab"`, line 0 character 5 (column out of range). -/
theorem compute_byte_offset_clamps_within_text_witness :
    ("ab".data ≠ [])
    ∧ ∃ o, compute_byte_offset "ab".data 0 5 = some o ∧ o + 1 ≤ "ab".data.length :=
  ⟨by decide,
    compute_byte_offset_clamps_within_text.1 "ab".data 0 5 (by decide) (by decide)⟩

/-! ## C2 — fan-out channels are NOT recreated per session -/

/-- C2 counterexample: with the one `LspServer` built at startup (name counter
`0`), spawning a first session and then a second one wires both sessions'
stdout readers to the **same** response and notification fan-out channels —
`init_stdio` allocates nothing (the counter is unchanged) — and those are the
very channels the client's blocking requests and the notification handler
subscribe to.  So the channels are not recreated per session: a body published
by the torn-down session's still-running stdout reader lands on the same
channel the new session's subscribers receive on, contradicting the claim's
recreation mechanism. -/
theorem fanout_channel_reuse_counterexample :
    (init_stdio (LspServer.new 0).1.1 (LspServer.new 0).2).1
      = (init_stdio (LspServer.new 0).1.1
          (init_stdio (LspServer.new 0).1.1 (LspServer.new 0).2).2).1
    ∧ (init_stdio (LspServer.new 0).1.1 (LspServer.new 0).2).2 = (LspServer.new 0).2
    ∧ (init_stdio (LspServer.new 0).1.1 (LspServer.new 0).2).1.stdoutResponsesTo
      = (LspServer.new 0).1.2.req_output_tx
    ∧ (init_stdio (LspServer.new 0).1.1 (LspServer.new 0).2).1.stdoutPushesTo
      = (LspServer.new 0).1.2.notif_rx := by
  decide

/-- C2 (amended): the response and notification fan-out channels are created
once, in `LspServer::new`, and reused by every session spawned from that
server: `init_stdio` performs no channel allocation (the name counter passes
through unchanged), every session's stdout reader publishes to the same two
channels, and those channels are exactly the ones handed to the client
(`req_output_tx`) and the notification handler (`notif_rx`) at startup.
Isolation from a torn-down session's messages therefore rests on the old
reader task exiting on `KillLsp` and on fresh per-request ids — not on channel
recreation. -/
theorem fanout_channels_created_once_and_shared (fresh f₁ f₂ : Nat) :
    (init_stdio (LspServer.new fresh).1.1 f₁).1
      = (init_stdio (LspServer.new fresh).1.1 f₂).1
    ∧ (init_stdio (LspServer.new fresh).1.1 f₁).2 = f₁
    ∧ (init_stdio (LspServer.new fresh).1.1 f₁).1.stdoutResponsesTo
      = (LspServer.new fresh).1.2.req_output_tx
    ∧ (init_stdio (LspServer.new fresh).1.1 f₁).1.stdoutPushesTo
      = (LspServer.new fresh).1.2.notif_rx := by
  exact ⟨rfl, rfl, rfl, rfl⟩

/-! ## C3 — session replacement can overlap the two processes -/

/-- Inversion for an empty interleaving. -/
theorem isInterleaving_nil {a b : List SpawnEvent}
    (h : isInterleaving [] a b = true) : a = [] ∧ b = [] := by
  cases a <;> cases b <;> simp_all [isInterleaving]

/-- Inversion for a nonempty interleaving: the head comes from one of the two
components. -/
theorem isInterleaving_cons {x : SpawnEvent} {t a b : List SpawnEvent}
    (h : isInterleaving (x :: t) a b = true) :
    (∃ a', a = x :: a' ∧ isInterleaving t a' b = true)
    ∨ (∃ b', b = x :: b' ∧ isInterleaving t a b' = true) := by
  cases a with
  | nil =>
    cases b with
    | nil => simp [isInterleaving] at h
    | cons y b' =>
      simp only [isInterleaving, Bool.or_eq_true, Bool.and_eq_true,
        decide_eq_true_eq] at h
      rcases h with h | ⟨rfl, h⟩
      · exact absurd h (by simp)
      · exact Or.inr ⟨b', rfl, h⟩
  | cons y a' =>
    cases b with
    | nil =>
      simp only [isInterleaving, Bool.or_eq_true, Bool.and_eq_true,
        decide_eq_true_eq] at h
      rcases h with ⟨rfl, h⟩ | h
      · exact Or.inl ⟨a', rfl, h⟩
      · exact absurd h (by simp)
    | cons z b' =>
      simp only [isInterleaving, Bool.or_eq_true, Bool.and_eq_true,
        decide_eq_true_eq] at h
      rcases h with ⟨rfl, h⟩ | ⟨rfl, h⟩
      · exact Or.inl ⟨a', rfl, h⟩
      · exact Or.inr ⟨b', rfl, h⟩

/-- An interleaving of `a` and `b` is a permutation of `a ++ b`. -/
theorem isInterleaving_perm :
    ∀ {t a b : List SpawnEvent}, isInterleaving t a b = true → t.Perm (a ++ b) := by
  intro t
  induction t with
  | nil =>
    intro a b h
    obtain ⟨rfl, rfl⟩ := isInterleaving_nil h
    exact List.Perm.refl _
  | cons x t ih =>
    intro a b h
    rcases isInterleaving_cons h with ⟨a', rfl, h'⟩ | ⟨b', rfl, h'⟩
    · exact (ih h').cons x
    · exact ((ih h').cons x).trans List.perm_middle.symm

/-- The left component of an interleaving embeds as a subsequence. -/
theorem isInterleaving_sublist_left :
    ∀ {t a b : List SpawnEvent}, isInterleaving t a b = true → a.Sublist t := by
  intro t
  induction t with
  | nil =>
    intro a b h
    obtain ⟨rfl, rfl⟩ := isInterleaving_nil h
    exact List.Sublist.refl _
  | cons x t ih =>
    intro a b h
    rcases isInterleaving_cons h with ⟨a', rfl, h'⟩ | ⟨b', rfl, h'⟩
    · exact (ih h').cons₂ x
    · exact (ih h').cons x

/-- The right component of an interleaving embeds as a subsequence. -/
theorem isInterleaving_sublist_right :
    ∀ {t a b : List SpawnEvent}, isInterleaving t a b = true → b.Sublist t := by
  intro t
  induction t with
  | nil =>
    intro a b h
    obtain ⟨rfl, rfl⟩ := isInterleaving_nil h
    exact List.Sublist.refl _
  | cons x t ih =>
    intro a b h
    rcases isInterleaving_cons h with ⟨a', rfl, h'⟩ | ⟨b', rfl, h'⟩
    · exact (ih h').cons x
    · exact (ih h').cons₂ x

/-- In a duplicate-free trace, a two-element subsequence fixes the relative
order of its elements' first occurrences. -/
theorem pair_sublist_indexOf_lt {x y : SpawnEvent} :
    ∀ {t : List SpawnEvent}, t.Nodup → [x, y].Sublist t →
      List.indexOf x t < List.indexOf y t := by
  intro t
  induction t with
  | nil => intro _ h; simp at h
  | cons z r ih =>
    intro hnd h
    rw [List.nodup_cons] at hnd
    obtain ⟨hz, hr⟩ := hnd
    cases h with
    | cons _ h' =>
      have hx : x ∈ r := h'.subset (by simp)
      have hy : y ∈ r := h'.subset (by simp)
      have hzx : z ≠ x := fun e => hz (e ▸ hx)
      have hzy : z ≠ y := fun e => hz (e ▸ hy)
      rw [List.indexOf_cons_ne _ hzx, List.indexOf_cons_ne _ hzy]
      exact Nat.succ_lt_succ (ih hr h')
    | cons₂ _ h' =>
      have hy : y ∈ r := h'.subset (by simp)
      have hxy : x ≠ y := fun e => hz (e ▸ hy)
      rw [List.indexOf_cons_self, List.indexOf_cons_ne _ hxy]
      exact Nat.succ_pos _

/-- C3 counterexample: the runtime schedule in which the command handler runs
to completion before the old supervisor task is polled — broadcast `KillLsp`,
spawn the new child, and only then the old supervisor receives the signal and
kills the old child — is a valid interleaving (the broadcast send returns as
soon as the message is enqueued; `spawn_lsp` never awaits the supervisor),
and in it the new process is spawned while the old process is still alive:
the two processes ARE alive simultaneously, and the old process's exit is not
observed before the spawn. -/
theorem session_replacement_overlap_counterexample :
    validTrace [.sendKill, .spawnNew, .recvKill, .oldExit] = true
    ∧ processesOverlap [.sendKill, .spawnNew, .recvKill, .oldExit] = true := by
  decide

/-- C3 (amended): when a spawn-session command is handled while a session is
active, the `KillLsp` cancellation broadcast is always sent before the new
process is spawned, and the old supervisor's kill of the first process always
follows its receipt of that broadcast — but the handler does not wait for the
old process's exit before spawning, so in every valid replacement trace the
ordering guarantees are exactly: send-before-spawn, send-before-receive,
receive-before-exit (and, as the counterexample shows, the two processes may
be alive simultaneously). -/
theorem session_replacement_signal_ordering (t : List SpawnEvent)
    (h : validTrace t = true) :
    eventIndex t .sendKill < eventIndex t .spawnNew
    ∧ eventIndex t .sendKill < eventIndex t .recvKill
    ∧ eventIndex t .recvKill < eventIndex t .oldExit := by
  rw [validTrace, Bool.and_eq_true, decide_eq_true_eq] at h
  obtain ⟨hint, hcausal⟩ := h
  have hnd : t.Nodup := by
    have hperm := isInterleaving_perm hint
    exact hperm.nodup_iff.mpr (by decide)
  refine ⟨?_, hcausal, ?_⟩
  · exact pair_sublist_indexOf_lt hnd (isInterleaving_sublist_left hint)
  · exact pair_sublist_indexOf_lt hnd (isInterleaving_sublist_right hint)

/-- C3 witness: the fully sequential replacement trace — kill observed before
the new spawn — satisfies all three orderings. -/
theorem session_replacement_signal_ordering_witness :
    validTrace [.sendKill, .recvKill, .oldExit, .spawnNew] = true
    ∧ eventIndex [SpawnEvent.sendKill, .recvKill, .oldExit, .spawnNew] .sendKill
      < eventIndex [SpawnEvent.sendKill, .recvKill, .oldExit, .spawnNew] .spawnNew :=
  ⟨by decide,
    (session_replacement_signal_ordering
      [.sendKill, .recvKill, .oldExit, .spawnNew] (by decide)).1⟩

end Sqlfriend
